import Mathlib

/-!
Verification of the i18n helper in `webserver/i18n.py` (class `I18n`).

The Python class holds a translation table (`translations`, a dict from
language code to a nested JSON dictionary), a `current_language` hint and
the fixed list `supported_languages = ['en', 'zh']`.  Its methods are
`load_translations`, `set_language`, `get_language` and `translate`.
We embed the class shallowly: the translation trees become an inductive
type `TranslationTree`, Flask's session and request proxies become explicit state
records, and Python exceptions become `Except` values.
-/

/-- Left brace character, written via its code point. -/
def lbraceC : Char := Char.ofNat 123

/-- Right brace character, written via its code point. -/
def rbraceC : Char := Char.ofNat 125

/-- Single-quote character, used by Python `repr` of strings. -/
def squoteC : Char := Char.ofNat 39

/-- Nested translation data, per the translation source format: an
arbitrarily nested mapping from string segments to sub-mappings or leaf
strings (a loaded `lang.json` document).  Dictionaries are modelled as
association lists. -/
inductive TranslationTree where
  | leaf (s : String)
  | node (entries : List (String × TranslationTree))
deriving Repr

mutual
/-- Python `repr` of a tree value: a leaf string is shown in single
quotes, a dictionary as a brace-enclosed, comma-separated listing of
`'key': repr(value)` pairs (string escaping inside leaves is not
modelled; leaves used here contain no quote characters). -/
def pyRepr : TranslationTree → String
  | .leaf s => String.singleton squoteC ++ s ++ String.singleton squoteC
  | .node entries =>
      String.singleton lbraceC ++
        String.intercalate ", " (pyReprEntries entries) ++
        String.singleton rbraceC

/-- Helper for `pyRepr`: renders each dictionary entry. -/
def pyReprEntries : List (String × TranslationTree) → List String
  | [] => []
  | (k, v) :: rest =>
      (String.singleton squoteC ++ k ++ String.singleton squoteC ++ ": " ++ pyRepr v)
        :: pyReprEntries rest
end

/-- Python `str` applied to a tree value: a string is returned as itself,
a dictionary is rendered through its `repr`. -/
def pyStr : TranslationTree → String
  | .leaf s => s
  | .node entries => pyRepr (.node entries)

/-- Python exception classes that arise in the translation path. -/
inductive PyErr where
  | keyError
  | valueError
  | indexError
deriving DecidableEq, Repr

/-- Scanner for Python's builtin `str.format`, modelled for the
placeholder shapes that occur in translation strings.  The second
argument is `none` outside a replacement field and `some buf` while the
characters of a field name are being collected.  Doubled braces escape a
literal brace; a lone or unterminated brace raises `ValueError`; an
empty or all-digit field is a positional index, which raises
`IndexError` because `text.format(**kwargs)` passes no positional
arguments; a named field absent from the keyword arguments raises
`KeyError`; conversion and format-spec suffixes inside a field are not
modelled (the whole field is treated as the name). -/
def formatGo (kwargs : List (String × String)) :
    List Char → Option (List Char) → String → Except PyErr String
  | [], none, acc => .ok acc
  | [], some _, _ => .error .valueError
  | [c], none, acc =>
      if c = lbraceC then .error .valueError
      else if c = rbraceC then .error .valueError
      else .ok (acc.push c)
  | c :: d :: rest, none, acc =>
      if c = lbraceC then
        if d = lbraceC then formatGo kwargs rest none (acc.push lbraceC)
        else formatGo kwargs (d :: rest) (some []) acc
      else if c = rbraceC then
        if d = rbraceC then formatGo kwargs rest none (acc.push rbraceC)
        else .error .valueError
      else formatGo kwargs (d :: rest) none (acc.push c)
  | c :: rest, some field, acc =>
      if c = rbraceC then
        if field.isEmpty || field.all Char.isDigit then .error .indexError
        else
          match kwargs.lookup (String.mk field) with
          | some v => formatGo kwargs rest none (acc ++ v)
          | none => .error .keyError
      else if c = lbraceC then .error .valueError
      else formatGo kwargs rest (some (field ++ [c])) acc

/-- Python `text.format(**kwargs)` as used by `translate`: either the
formatted string or the exception class it raises. -/
def pyFormat (fmt : String) (kwargs : List (String × String)) : Except PyErr String :=
  formatGo kwargs fmt.data none ""

/-- Dot character, the separator of nested lookup keys. -/
def dotC : Char := '.'

/-- Dash character, the region separator of language tags. -/
def dashC : Char := '-'

/-- Python `s.split(sep)` for a single-character separator: always
returns at least one piece, and adjacent separators yield empty
pieces. -/
def splitChars (sep : Char) : List Char → List String
  | [] => [""]
  | c :: cs =>
      let rest := splitChars sep cs
      if c = sep then "" :: rest
      else
        match rest with
        | [] => [String.singleton c]
        | r :: rs => (String.singleton c ++ r) :: rs

/-- Python `s.lower()`, restricted to ASCII case mapping (language tags
contain only ASCII letters). -/
def pyLower (s : String) : String :=
  String.mk (s.data.map Char.toLower)

/-- The per-requester session store as `get_language` and `set_language`
see it: `available = false` models the `RuntimeError` raised by the
session proxy outside a request context, and `language` is the content
of the reserved `session['language']` slot. -/
structure SessionState where
  available : Bool
  language : Option String
deriving Repr, DecidableEq

/-- The request as `get_language` sees it: `available` models
`request and hasattr(request, 'accept_languages')`, and `prefs` is the
declared language-preference list in priority order.  Each element is
the tag string extracted from the preference entry
(`lang[0]` for tuples, else the `language` attribute or `str(lang)`);
an `Except.error` element models an entry whose processing raises one of
the exceptions `AttributeError`, `IndexError`, `TypeError` that the
surrounding `try` catches. -/
structure ReqCtx where
  available : Bool
  prefs : List (Except Unit String)
deriving Repr

/-- The `I18n` instance state: the translation table, the in-memory
current-language hint, and the supported-language list. -/
structure I18n where
  translations : List (String × TranslationTree)
  current_language : String
  supported_languages : List String
deriving Repr

/-- Outcome of reading and parsing one `lang.json` translation file:
the file may be absent (`FileNotFoundError`), hold invalid JSON
(`json.JSONDecodeError`), or parse to a tree. -/
inductive LoadResult where
  | fileNotFound
  | jsonDecodeError
  | ok (t : TranslationTree)
deriving Repr

/-- Method `load_translations`: for each supported language, load its
file; on `FileNotFoundError` or `json.JSONDecodeError` the exception is
caught, a warning is printed, and the language is bound to the empty
dictionary. -/
def load_translations (supported_languages : List String)
    (loader : String → LoadResult) : List (String × TranslationTree) :=
  supported_languages.map fun lang =>
    (lang,
      match loader lang with
      | .ok t => t
      | .fileNotFound => .node []
      | .jsonDecodeError => .node [])

/-- The constructor `I18n.__init__`: `translations` is filled by
`load_translations`, `current_language` starts as `'en'`, and
`supported_languages` is the fixed list `['en', 'zh']`. -/
def I18n.init (loader : String → LoadResult) : I18n :=
  ⟨load_translations ["en", "zh"] loader, "en", ["en", "zh"]⟩

/-- Method `set_language`: if the language is supported, update the
`current_language` hint and try to write the session slot, swallowing
the `RuntimeError` raised when no session is available; otherwise do
nothing.  Returns the updated instance and session. -/
def I18n.set_language (st : I18n) (sess : SessionState) (language : String) :
    I18n × SessionState :=
  if language ∈ st.supported_languages then
    (⟨st.translations, language, st.supported_languages⟩,
      if sess.available then ⟨sess.available, some language⟩ else sess)
  else
    (st, sess)

/-- Normalization applied to each preference entry in `get_language`:
`lang_code.split('-')[0].lower()`. -/
def normalizeTag (p : String) : String :=
  pyLower ((splitChars dashC p.data).headD "")

/-- The preference loop of `get_language`: return the first normalized
entry that is a supported language; an entry whose processing raises
aborts the whole loop (the `try` wraps the `for`), falling through to
the `'en'` default, as does exhausting the list. -/
def processPrefs (supported_languages : List String) :
    List (Except Unit String) → String
  | [] => "en"
  | .error _ :: _ => "en"
  | .ok p :: rest =>
      if normalizeTag p ∈ supported_languages then normalizeTag p
      else processPrefs supported_languages rest

/-- Method `get_language`: session slot first (a `RuntimeError` from the
unavailable session proxy is swallowed), then browser preference
detection, then the `'en'` default. -/
def I18n.get_language (st : I18n) (sess : SessionState) (req : ReqCtx) : String :=
  match sess.available, sess.language with
  | true, some l => l
  | _, _ =>
      if req.available then processPrefs st.supported_languages req.prefs
      else "en"

/-- The nested walk `get_nested_value` inside `translate`, after the
key has been split: step into a dictionary entry per segment; a missing
segment or a non-dictionary node yields `None`. -/
def walkTranslationTree : List String → TranslationTree → Option TranslationTree
  | [], v => some v
  | k :: ks, v =>
      match v with
      | .node entries =>
          match entries.lookup k with
          | some v2 => walkTranslationTree ks v2
          | none => none
      | .leaf _ => none

/-- Local function `get_nested_value(data, key_path)` of `translate`:
split the key path on dots and walk the tree. -/
def get_nested_value (data : TranslationTree) (key_path : String) :
    Option TranslationTree :=
  walkTranslationTree (splitChars dotC key_path.data) data

/-- The per-language lookup step of `translate`:
`get_nested_value(self.translations[lang], key)` when `lang` is a key of
the table, else `None`. -/
def I18n.lookupInLang (st : I18n) (lang : String) (key : String) :
    Option TranslationTree :=
  match st.translations.lookup lang with
  | some tr => get_nested_value tr key
  | none => none

/-- The `text.format(**kwargs)` step of `translate` with its inner
`try`: skipped when no keyword arguments are given; `KeyError` and
`ValueError` are caught, leaving the text unchanged; any other
exception (such as the `IndexError` of a positional field) escapes to
the outer handler. -/
def applyFormat (text : String) (kwargs : List (String × String)) :
    Except PyErr String :=
  if kwargs.isEmpty then .ok text
  else
    match pyFormat text kwargs with
    | .ok r => .ok r
    | .error .keyError => .ok text
    | .error .valueError => .ok text
    | .error e => .error e

/-- The resolution steps of `translate`: `text1` is the walk in the
current language's tree, `text2` falls back to the `'en'` tree when
`text1` is `None`. -/
def I18n.resolveText (st : I18n) (sess : SessionState) (req : ReqCtx)
    (key : String) : Option TranslationTree :=
  let current_lang := st.get_language sess req
  let text1 := st.lookupInLang current_lang key
  match text1 with
  | some v => some v
  | none => st.lookupInLang "en" key

/-- Body of method `translate` inside its outer `try`: resolve the
current language, walk that language's tree, fall back to the `'en'`
tree, fall back to the key itself, then format string values and
coerce the result with `str(...)`. -/
def I18n.translate_body (st : I18n) (sess : SessionState) (req : ReqCtx)
    (key : String) (kwargs : List (String × String)) : Except PyErr String :=
  match st.resolveText sess req key with
  | none => applyFormat key kwargs
  | some (.leaf s) => applyFormat s kwargs
  | some (.node entries) => .ok (pyStr (.node entries))

/-- Method `translate`: the body runs under `except Exception`, which
logs and returns the original key on any escaped exception. -/
def I18n.translate (st : I18n) (sess : SessionState) (req : ReqCtx)
    (key : String) (kwargs : List (String × String)) : String :=
  match st.translate_body sess req key kwargs with
  | .ok s => s
  | .error _ => key

/-- Method `translate` with its state interactions made explicit: the
method body and the `get_language` call it makes contain only reads of
`self.translations`, `self.supported_languages`, the session and the
request — no assignment to any of them — so the instance and session
pass through unchanged. -/
def I18n.translateT (st : I18n) (sess : SessionState) (req : ReqCtx)
    (key : String) (kwargs : List (String × String)) :
    String × I18n × SessionState :=
  (st.translate sess req key kwargs, st, sess)

/-- Looking up a supported language in the loaded table finds the
loaded tree, with loader failures replaced by the empty dictionary. -/
theorem load_translations_lookup (supported_languages : List String)
    (loader : String → LoadResult) (lang : String)
    (h : lang ∈ supported_languages) :
    (load_translations supported_languages loader).lookup lang =
      some (match loader lang with
            | .ok t => t
            | .fileNotFound => .node []
            | .jsonDecodeError => .node []) := by
  induction supported_languages with
  | nil => cases h
  | cons a rest ih =>
      rcases List.mem_cons.mp h with h1 | h2
      · subst h1
        simp [load_translations, List.lookup]
      · by_cases hal : lang = a
        · subst hal
          simp [load_translations, List.lookup]
        · have hba : (lang == a) = false := by simp [hal]
          simp only [load_translations, List.map_cons, List.lookup, hba]
          exact ih h2

/-- Claim C5: after initialization the translation table has an entry
for every supported language; a language whose source file is absent or
holds malformed JSON is bound to the empty dictionary, the failure only
being logged. -/
theorem init_translations_complete (loader : String → LoadResult) (lang : String)
    (h : lang ∈ (I18n.init loader).supported_languages) :
    ((I18n.init loader).translations.lookup lang).isSome = true ∧
    (loader lang = .fileNotFound ∨ loader lang = .jsonDecodeError →
      (I18n.init loader).translations.lookup lang = some (.node [])) := by
  have hl := load_translations_lookup ["en", "zh"] loader lang h
  constructor
  · show (List.lookup lang (load_translations ["en", "zh"] loader)).isSome = true
    rw [hl]
    rfl
  · intro hcase
    show List.lookup lang (load_translations ["en", "zh"] loader) =
      some (.node [])
    rw [hl]
    rcases hcase with hc | hc <;> rw [hc]

/-- Witness for C5: with every file missing, the `'zh'` entry exists
and is the empty dictionary. -/
theorem init_translations_complete_witness :
    (I18n.init fun _ => LoadResult.fileNotFound).translations.lookup "zh" =
      some (.node []) :=
  (init_translations_complete (fun _ => .fileNotFound) "zh" (by decide)).2
    (Or.inl rfl)

/-- Claim C3: `get_language` resolves in fixed priority order: a set
session slot is returned as-is; otherwise the declared preferences are
scanned in order for the first whose lowercased primary subtag is
supported, a failing entry aborting the scan; otherwise `'en'`. -/
theorem get_language_priority (st : I18n) (sess : SessionState) (req : ReqCtx) :
    (∀ l, sess.available = true → sess.language = some l →
        st.get_language sess req = l) ∧
    (sess.available = false ∨ sess.language = none →
        st.get_language sess req =
          if req.available then processPrefs st.supported_languages req.prefs
          else "en") ∧
    processPrefs st.supported_languages [] = "en" ∧
    (∀ e rest, processPrefs st.supported_languages (Except.error e :: rest) = "en") ∧
    (∀ p rest,
        processPrefs st.supported_languages (Except.ok p :: rest) =
          if normalizeTag p ∈ st.supported_languages then normalizeTag p
          else processPrefs st.supported_languages rest) := by
  refine ⟨?_, ?_, rfl, fun e rest => rfl, fun p rest => rfl⟩
  · intro l ha hl
    simp [I18n.get_language, ha, hl]
  · intro h
    rcases h with h | h
    · rcases hsl : sess.language with _ | l <;>
        simp [I18n.get_language, h, hsl]
    · rcases hsa : sess.available <;> simp [I18n.get_language, h, hsa]

/-- Witness for C3, the specification's own example: no session
override, preferences `["zh-CN", "fr"]`, supported `["en", "zh"]`
resolve to `"zh"`. -/
theorem get_language_priority_witness :
    I18n.get_language ⟨[], "en", ["en", "zh"]⟩ ⟨false, none⟩
        ⟨true, [.ok "zh-CN", .ok "fr"]⟩ = "zh" := by
  have h := (get_language_priority ⟨[], "en", ["en", "zh"]⟩ ⟨false, none⟩
      ⟨true, [.ok "zh-CN", .ok "fr"]⟩).2.1 (Or.inl rfl)
  rw [h]
  decide

/-- Claim C6: `set_language` with an unsupported code is a no-op —
instance and session are unchanged, so `get_language` resolves exactly
as before — and with a supported code but no session context it does
not fail, updating only the in-memory hint. -/
theorem set_language_frame (st : I18n) (sess : SessionState) (code : String) :
    (code ∉ st.supported_languages →
      st.set_language sess code = (st, sess) ∧
      ∀ req, ((st.set_language sess code).1).get_language
          ((st.set_language sess code).2) req = st.get_language sess req) ∧
    (code ∈ st.supported_languages → sess.available = false →
      st.set_language sess code =
        (⟨st.translations, code, st.supported_languages⟩, sess)) := by
  constructor
  · intro hc
    have he : st.set_language sess code = (st, sess) := by
      simp [I18n.set_language, hc]
    exact ⟨he, fun req => by rw [he]⟩
  · intro hc hs
    simp [I18n.set_language, hc, hs]

/-- Witness for C6: `'fr'` is ignored outright, and `'zh'` outside a
request context updates the hint but not the session. -/
theorem set_language_frame_witness :
    I18n.set_language ⟨[], "en", ["en", "zh"]⟩ ⟨true, some "en"⟩ "fr" =
        (⟨[], "en", ["en", "zh"]⟩, ⟨true, some "en"⟩) ∧
    I18n.set_language ⟨[], "en", ["en", "zh"]⟩ ⟨false, none⟩ "zh" =
        (⟨[], "zh", ["en", "zh"]⟩, ⟨false, none⟩) :=
  ⟨((set_language_frame ⟨[], "en", ["en", "zh"]⟩ ⟨true, some "en"⟩ "fr").1
      (by decide)).1,
    (set_language_frame ⟨[], "en", ["en", "zh"]⟩ ⟨false, none⟩ "zh").2
      (by decide) rfl⟩

/-- Claim C9: the `current_language` hint never influences resolution:
two instances differing only in the hint give identical `get_language`
and `translate` results on every session, request, key and parameter
set. -/
theorem current_language_noninterference
    (tr : List (String × TranslationTree)) (c1 c2 : String)
    (sup : List String) (sess : SessionState) (req : ReqCtx)
    (key : String) (kwargs : List (String × String)) :
    I18n.get_language ⟨tr, c1, sup⟩ sess req =
      I18n.get_language ⟨tr, c2, sup⟩ sess req ∧
    I18n.translate ⟨tr, c1, sup⟩ sess req key kwargs =
      I18n.translate ⟨tr, c2, sup⟩ sess req key kwargs :=
  ⟨rfl, rfl⟩

/-- Claim C10: `set_language` writes the session slot only behind the
membership check: after any call the slot is either exactly what it was
or a member of the supported languages. -/
theorem set_language_session_supported (st : I18n) (sess : SessionState)
    (code : String) :
    ((st.set_language sess code).2).language = sess.language ∨
    (((st.set_language sess code).2).language = some code ∧
      code ∈ st.supported_languages) := by
  by_cases hc : code ∈ st.supported_languages
  · by_cases hs : sess.available = true
    · right
      constructor
      · simp [I18n.set_language, hc, hs]
      · exact hc
    · left
      simp [I18n.set_language, hc, hs]
  · left
    simp [I18n.set_language, hc]

/-- Claim C8: `translate` is idempotent and mutation-free: the call
leaves the instance (with its translation table) and the session
exactly as they were, and repeating it on the returned state yields the
identical result. -/
theorem translate_idempotent_pure (st : I18n) (sess : SessionState) (req : ReqCtx)
    (key : String) (kwargs : List (String × String)) :
    (st.translateT sess req key kwargs).2.1 = st ∧
    (st.translateT sess req key kwargs).2.2 = sess ∧
    ((st.translateT sess req key kwargs).2.1).translateT
        ((st.translateT sess req key kwargs).2.2) req key kwargs =
      st.translateT sess req key kwargs :=
  ⟨rfl, rfl, rfl⟩

/-- Claim C1: `translate` resolves by the fallback chain — the dot-split
walk on the active language's tree, else the same walk on the `'en'`
tree, else the literal key — stated for a parameterless call, where no
interpolation step applies to the resolved text. -/
theorem translate_fallback_chain (st : I18n) (sess : SessionState) (req : ReqCtx)
    (key : String) :
    st.translate sess req key [] =
      match st.lookupInLang (st.get_language sess req) key with
      | some v => pyStr v
      | none =>
          match st.lookupInLang "en" key with
          | some v => pyStr v
          | none => key := by
  simp only [I18n.translate, I18n.translate_body, I18n.resolveText]
  cases h1 : st.lookupInLang (st.get_language sess req) key with
  | some v => cases v <;> simp [applyFormat, pyStr]
  | none =>
      cases h2 : st.lookupInLang "en" key with
      | some v => cases v <;> simp [applyFormat, pyStr]
      | none => simp [applyFormat]

/-- Claim C2: `translate` is total at its interface: on a successful
body it returns the body's string, and when any exception escapes the
body the outermost handler returns the original key unmodified. -/
theorem translate_total (st : I18n) (sess : SessionState) (req : ReqCtx)
    (key : String) (kwargs : List (String × String)) :
    (∀ e, st.translate_body sess req key kwargs = .error e →
        st.translate sess req key kwargs = key) ∧
    (∀ s, st.translate_body sess req key kwargs = .ok s →
        st.translate sess req key kwargs = s) := by
  constructor <;> intro x h <;> simp [I18n.translate, h]

/-- Witness for C2 at a failing input: a resolved text holding a
positional field makes the format step raise `IndexError` past the
inner handler, and the call still returns the key `"a"`. -/
theorem translate_total_witness :
    I18n.translate ⟨[("en", .node [("a", .leaf "x\x7b\x7d")])], "en", ["en", "zh"]⟩
        ⟨false, none⟩ ⟨false, []⟩ "a" [("name", "X")] = "a" :=
  (translate_total ⟨[("en", .node [("a", .leaf "x\x7b\x7d")])], "en", ["en", "zh"]⟩
      ⟨false, none⟩ ⟨false, []⟩ "a" [("name", "X")]).1 .indexError rfl

/-- Claim C4: with keyword parameters supplied and the key resolved to a
leaf string, `translate` substitutes `name`-style
placeholders; a missing placeholder value (`KeyError`) or malformed
placeholder syntax (`ValueError`) is swallowed, the text coming back
unchanged. -/
theorem translate_interpolation (st : I18n) (sess : SessionState) (req : ReqCtx)
    (key : String) (kwargs : List (String × String)) (s : String)
    (hk : kwargs ≠ [])
    (hres : st.resolveText sess req key = some (.leaf s)) :
    (∀ r, pyFormat s kwargs = .ok r → st.translate sess req key kwargs = r) ∧
    (pyFormat s kwargs = .error .keyError → st.translate sess req key kwargs = s) ∧
    (pyFormat s kwargs = .error .valueError → st.translate sess req key kwargs = s) := by
  have hne : kwargs.isEmpty = false := by
    cases kwargs with
    | nil => exact absurd rfl hk
    | cons a l => rfl
  refine ⟨fun r h => ?_, fun h => ?_, fun h => ?_⟩ <;>
    simp [I18n.translate, I18n.translate_body, hres, applyFormat, hne, h]

/-- Witness for C4, the specification's own example: the entry `a.b` is
the string `Hello {name}` and the parameter `name = X` yields
`Hello X`. -/
theorem translate_interpolation_witness :
    I18n.translate
        ⟨[("en", .node [("a", .node [("b", .leaf "Hello \x7bname\x7d")])])],
          "en", ["en", "zh"]⟩
        ⟨false, none⟩ ⟨false, []⟩ "a.b" [("name", "X")] = "Hello X" :=
  (translate_interpolation
      ⟨[("en", .node [("a", .node [("b", .leaf "Hello \x7bname\x7d")])])],
        "en", ["en", "zh"]⟩
      ⟨false, none⟩ ⟨false, []⟩ "a.b" [("name", "X")] "Hello \x7bname\x7d"
      (by simp) rfl).1 "Hello X" rfl

/-- Claim C7: a key addressing an intermediate dictionary node resolves
to the string representation of that dictionary, not to a failure and
not to the literal key. -/
theorem translate_intermediate_node (st : I18n) (sess : SessionState) (req : ReqCtx)
    (key : String) (kwargs : List (String × String))
    (entries : List (String × TranslationTree))
    (h : st.resolveText sess req key = some (.node entries)) :
    st.translate sess req key kwargs = pyStr (.node entries) := by
  simp [I18n.translate, I18n.translate_body, h]

/-- Witness for C7: the short key `"a"` reaches the nested dictionary
and comes back as that dictionary's rendering, which differs from the
key. -/
theorem translate_intermediate_node_witness :
    I18n.translate ⟨[("en", .node [("a", .node [("b", .leaf "v")])])],
        "en", ["en", "zh"]⟩
        ⟨false, none⟩ ⟨false, []⟩ "a" [] = pyStr (.node [("b", .leaf "v")]) ∧
    pyStr (.node [("b", .leaf "v")]) ≠ "a" :=
  ⟨translate_intermediate_node ⟨[("en", .node [("a", .node [("b", .leaf "v")])])],
        "en", ["en", "zh"]⟩
      ⟨false, none⟩ ⟨false, []⟩ "a" [] [("b", .leaf "v")] rfl,
    by decide⟩
